import Mathlib

/-!
Shallow embedding of `ArUcoMarkerDetector.cpp`
(SpectatorView.Native/SpectatorView.Compositor/Compositor).

The file embeds the four boundary operations of the detector —
`DetectMarkers`, `GetDetectedMarkerIds`, `GetDetectedMarkerPose`,
`GetDilatedMask` — together with the detection store they share.

Modelling conventions:
* scalars coming from the caller (`float` / `double` camera parameters and
  pose components) are kept at an abstract type `α`; the C++ code only moves
  them around, it never computes with them, so the embedding is exact up to
  the value-preserving `float`/`double` conversions;
* the external OpenCV routines (`cvtColor`, `cv::aruco::detectMarkers`,
  `cv::aruco::estimatePoseSingleMarkers`) are not code of this repository;
  they are modelled as an abstract record of pure functions `CvOracle`
  supplied by the environment (the library is deterministic for a fixed
  configuration, so a pure function is a faithful model);
* `cv::dilate` with the 3×3 rectangular structuring element is likewise
  external; it is given an explicit mathematical definition `dilate3x3`
  (maximum over the in-bounds 3×3 neighbourhood, the anchor pixel included);
* caller-supplied buffers are total functions (`Nat → Int`,
  `Nat → Nat → Nat`); a call returns the buffer contents after the call, so
  "left unwritten" is literal equality of functions or of their values;
* `std::map<int, Marker>` is modelled as an association list with unique
  keys; its iteration order is the list order, which the spec leaves
  unspecified.
-/

namespace ArUco

/-- 3-component vector, mirroring the `Vector3` struct used for marker
position and rotation. -/
structure Vector3 (α : Type) where
  x : α
  y : α
  z : α
deriving DecidableEq

/-- Mirrors the `Marker` struct: decoded identifier plus translation and
rotation (Rodrigues) vectors. -/
structure Marker (α : Type) where
  id : Int
  position : Vector3 α
  rotation : Vector3 α
deriving DecidableEq

/-- The detection store `std::map<int, Marker>` as an association list.
Iteration order of the container is unspecified by the spec; here it is the
list order. -/
abbrev Store (α : Type) := List (Int × Marker α)

/-- Keys of the store, in iteration order. -/
def storeKeys {α : Type} (st : Store α) : List Int :=
  st.map (fun p => p.1)

/-- `std::map::find` (as used by `GetDetectedMarkerPose`): the value stored
at a key, if any. -/
def storeFind {α : Type} (st : Store α) (id : Int) : Option (Marker α) :=
  match st with
  | [] => none
  | (k, v) :: rest => if k = id then some v else storeFind rest id

/-- `std::map::operator[]` followed by assignment (as used in the
`DetectMarkers` loop): replace the value at an existing key, or add the
binding. -/
def storeInsert {α : Type} (st : Store α) (id : Int) (m : Marker α) : Store α :=
  match st with
  | [] => [(id, m)]
  | (k, v) :: rest =>
      if k = id then (k, m) :: rest else (k, v) :: storeInsert rest id m

/-- `cv::Mat::at<double>(i, j) = v` on a 3×3 matrix: pointwise update. -/
def matSet {α : Type} (mat : Fin 3 → Fin 3 → α) (i j : Fin 3) (v : α) :
    Fin 3 → Fin 3 → α :=
  fun r c => if r = i ∧ c = j then v else mat r c

/-- The intrinsic camera matrix built inside `DetectMarkers`: a 3×3 matrix
initialized to `cv::Scalar(0)` and then written entry by entry, in the order
of the source's assignments. -/
def cameraMatrix {α : Type} [Zero α] [One α]
    (focalLength principalPoint : Fin 2 → α) : Fin 3 → Fin 3 → α :=
  matSet
    (matSet
      (matSet
        (matSet
          (matSet (fun _ _ => 0) 0 0 (focalLength 0))
          0 2 (principalPoint 0))
        1 1 (focalLength 1))
      1 2 (principalPoint 1))
    2 2 1

/-- `cv::Mat::at<double>(0, i) = v` on the 1×5 distortion row vector. -/
def vecSet {α : Type} (v : Fin 5 → α) (i : Fin 5) (x : α) : Fin 5 → α :=
  fun j => if j = i then x else v j

/-- The 1×5 distortion coefficient vector built inside `DetectMarkers`:
initialized to zeros and written entry by entry, in the order of the source's
assignments (r1, r2, t1, t2, r3). -/
def distCoeffMatrix {α : Type} [Zero α]
    (radialDistortion : Fin 3 → α) (tangentialDistortion : Fin 2 → α) :
    Fin 5 → α :=
  vecSet
    (vecSet
      (vecSet
        (vecSet
          (vecSet (fun _ => 0) 0 (radialDistortion 0))
          1 (radialDistortion 1))
        2 (tangentialDistortion 0))
      3 (tangentialDistortion 1))
    4 (radialDistortion 2)

/-- The external OpenCV routines used by `DetectMarkers`, modelled as a
record of pure functions (the library is deterministic for a fixed,
default detector configuration, which is what the code uses).
`cvtColorBGRA2GRAY` maps the BGRA byte buffer plus its dimensions to a
grayscale image; `detectMarkers` maps the grayscale image and dictionary id
to the index-aligned lists of decoded ids and corner sets;
`estimatePoseSingleMarkers` maps corner sets, marker size, camera matrix and
distortion vector to index-aligned translation and rotation vectors (one per
input marker, per its contract). -/
structure CvOracle (α : Type) where
  cvtColorBGRA2GRAY : (Nat → Nat) → Int → Int → (Nat → Nat)
  detectMarkers : (Nat → Nat) → Int → List Int × List (List (α × α))
  estimatePoseSingleMarkers : List (List (α × α)) → α → (Fin 3 → Fin 3 → α) →
    (Fin 5 → α) → List (Vector3 α) × List (Vector3 α)

/-- Instance state of `ArUcoMarkerDetector`: the detection store
`_detectedMarkers`. -/
structure DetectorState (α : Type) where
  _detectedMarkers : Store α
deriving DecidableEq

/-- The body of the repopulation loop at the end of `DetectMarkers`: for each
index-aligned entry `(id, (tvec, rvec))`, build a `Marker` and store it with
`_detectedMarkers[id] = marker`. -/
def detectLoop {α : Type} (entries : List (Int × (Vector3 α × Vector3 α)))
    (st : Store α) : Store α :=
  entries.foldl
    (fun s e => storeInsert s e.1 { id := e.1, position := e.2.1, rotation := e.2.2 })
    st

/-- The detection pass of `DetectMarkers` up to (but excluding) the store
update: grayscale conversion, marker detection, camera model construction and
pose estimation, producing the index-aligned list of
`(id, (translation, rotation))` entries the loop consumes.
(`estimatePoseSingleMarkers` returns one translation and one rotation per
input marker, so zipping is exact; reading past the end of the pose vectors
would be undefined behavior excluded by that contract.) -/
def detectPassEntries {α : Type} [Zero α] [One α] (cv : CvOracle α)
    (imageData : Nat → Nat) (imageWidth imageHeight : Int)
    (focalLength principalPoint : Fin 2 → α) (radialDistortion : Fin 3 → α)
    (tangentialDistortion : Fin 2 → α) (markerSize : α)
    (arUcoMarkerDictionaryId : Int) : List (Int × (Vector3 α × Vector3 α)) :=
  let grayImage := cv.cvtColorBGRA2GRAY imageData imageWidth imageHeight
  let detected := cv.detectMarkers grayImage arUcoMarkerDictionaryId
  let arUcoMarkerIds := detected.1
  let arUcoMarkers := detected.2
  let camera := cameraMatrix focalLength principalPoint
  let distCoeff := distCoeffMatrix radialDistortion tangentialDistortion
  let pose := cv.estimatePoseSingleMarkers arUcoMarkers markerSize camera distCoeff
  arUcoMarkerIds.zip (pose.1.zip pose.2)

/-- `ArUcoMarkerDetector::DetectMarkers`: runs the detection pass, clears
`_detectedMarkers`, repopulates it from the pass entries and returns `true`.
Result: `(returned bool, state after the call)`. -/
def DetectMarkers {α : Type} [Zero α] [One α] (cv : CvOracle α)
    (imageData : Nat → Nat) (imageWidth imageHeight : Int)
    (focalLength principalPoint : Fin 2 → α) (radialDistortion : Fin 3 → α)
    (tangentialDistortion : Fin 2 → α) (markerSize : α)
    (arUcoMarkerDictionaryId : Int) (st : DetectorState α) :
    Bool × DetectorState α :=
  let entries := detectPassEntries cv imageData imageWidth imageHeight
    focalLength principalPoint radialDistortion tangentialDistortion
    markerSize arUcoMarkerDictionaryId
  let cleared : Store α := []
  (true, { _detectedMarkers := detectLoop entries cleared })

/-- `static_cast<size_t>(size)` for a C `int` value: two's-complement
reinterpretation modulo `2^64` (a negative `int` becomes a huge unsigned
value). -/
def sizeTCast (size : Int) : Nat :=
  (size % (2 : Int) ^ 64).toNat

/-- Write one `int` into the output buffer at an index
(`_detectedIds[index] = ...`). -/
def bufSet (buf : Nat → Int) (i : Nat) (v : Int) : Nat → Int :=
  fun n => if n = i then v else buf n

/-- The write loop of `GetDetectedMarkerIds`: walk the store in iteration
order, writing `markerPair.second.id` at consecutive indices starting from
`index`. -/
def writeIdsLoop {α : Type} (pairs : Store α) (buf : Nat → Int) (index : Nat) :
    Nat → Int :=
  match pairs with
  | [] => buf
  | p :: rest => writeIdsLoop rest (bufSet buf index p.2.id) (index + 1)

/-- `ArUcoMarkerDetector::GetDetectedMarkerIds`: fails when
`_detectedMarkers.size() > static_cast<size_t>(size)`, otherwise writes every
stored identifier into the buffer starting at index 0 and succeeds.
Result: `(returned bool, state after the call, output buffer after the
call)`. -/
def GetDetectedMarkerIds {α : Type} (st : DetectorState α) (buf : Nat → Int)
    (size : Int) : Bool × DetectorState α × (Nat → Int) :=
  if st._detectedMarkers.length > sizeTCast size then
    (false, st, buf)
  else
    (true, st, writeIdsLoop st._detectedMarkers buf 0)

/-- `ArUcoMarkerDetector::GetDetectedMarkerPose`: fails when the id is absent
from `_detectedMarkers`; otherwise copies the stored position and rotation
into the caller's output locations (`memcpy_s`) and succeeds.
Result: `(returned bool, state after the call, position output after the
call, rotation output after the call)`. -/
def GetDetectedMarkerPose {α : Type} (st : DetectorState α) (_detectedId : Int)
    (position rotation : Vector3 α) :
    Bool × DetectorState α × Vector3 α × Vector3 α :=
  match storeFind st._detectedMarkers _detectedId with
  | none => (false, st, position, rotation)
  | some marker => (true, st, marker.position, marker.rotation)

/-- The offsets of the 3×3 rectangular structuring element
(`getStructuringElement(MORPH_RECT, Size(3, 3), Point(1, 1))`), relative to
the anchor at its center. -/
def kernelOffsets : List (Int × Int) :=
  [(-1, -1), (-1, 0), (-1, 1), (0, -1), (0, 0), (0, 1), (1, -1), (1, 0), (1, 1)]

/-- Modelled from the spec: `cv::dilate` (external OpenCV routine, not code
of this repository) with the 3×3 rectangular kernel — each output pixel is
the maximum of the input over the in-bounds part of the 3×3 neighbourhood
centred at that pixel ("a dilated copy using a rectangular 3×3 structuring
element (fixed radius 1) anchored at its center"). The mask has `r` rows and
`c` columns; pixels are 16-bit labels modelled as `Nat`. -/
def dilate3x3 (r c : Nat) (m : Nat → Nat → Nat) : Nat → Nat → Nat :=
  fun i j =>
    (kernelOffsets.filterMap (fun d =>
      let i2 : Int := (i : Int) + d.1
      let j2 : Int := (j : Int) + d.2
      if 0 ≤ i2 ∧ i2 < (r : Int) ∧ 0 ≤ j2 ∧ j2 < (c : Int) then
        some (m i2.toNat j2.toNat)
      else none)).foldl max 0

/-- Which allocation a `uint16_t*` returned by `GetDilatedMask` aliases: the
caller's input buffer, or the fresh buffer the dilation was computed into. -/
inductive MaskAddr where
  | input
  | fresh
deriving DecidableEq

/-- Observable outcome of a `GetDilatedMask` call: which buffer the returned
pointer aliases, the contents of the caller's input buffer after the call,
and the contents of the fresh dilated buffer. -/
structure DilateCall where
  returnedAddr : MaskAddr
  inputAfter : Nat → Nat → Nat
  dilatedContents : Nat → Nat → Nat

/-- `ArUcoMarkerDetector::GetDilatedMask`: wraps the caller's buffer as a
`row × col` matrix, computes the dilation into a fresh matrix `dilatedMask`,
and returns the original `mask` pointer (`return mask;`) — not the fresh
buffer. `cv::dilate` reads its source and writes only its destination, so the
input buffer is unchanged. -/
def GetDilatedMask (mask : Nat → Nat → Nat) (col row : Int) : DilateCall :=
  { returnedAddr := MaskAddr.input
  , inputAfter := mask
  , dilatedContents := dilate3x3 row.toNat col.toNat mask }

/-- Number of non-zero (labeled) pixels of an `r × c` mask. -/
def nnz (r c : Nat) (m : Nat → Nat → Nat) : Nat :=
  (((Finset.range r) ×ˢ (Finset.range c)).filter (fun p => m p.1 p.2 ≠ 0)).card

/-- A concrete marker, for evaluating the operations on explicit states. -/
def exMarker : Marker Int :=
  { id := 7, position := ⟨1, 2, 3⟩, rotation := ⟨4, 5, 6⟩ }

/-- A concrete detector state holding exactly one marker (id 7). -/
def exState : DetectorState Int :=
  { _detectedMarkers := [(7, exMarker)] }

/-- A concrete all-zero output buffer. -/
def exBuf : Nat → Int := fun _ => 0

/-- A concrete 2×2 mask with a single labeled pixel at (0, 0). -/
def exMask : Nat → Nat → Nat :=
  fun i j => if i = 0 ∧ j = 0 then 1 else 0

/-- A concrete environment in which the detector decodes no markers. -/
def cvEmptyOracle : CvOracle Int :=
  { cvtColorBGRA2GRAY := fun b _ _ => b
  , detectMarkers := fun _ _ => ([], [])
  , estimatePoseSingleMarkers := fun _ _ _ _ => ([], []) }

/-- A concrete environment in which the detector decodes three markers, two
of them sharing id 4 (so the pass exercises last-write-wins). -/
def cvThreeOracle : CvOracle Int :=
  { cvtColorBGRA2GRAY := fun b _ _ => b
  , detectMarkers := fun _ _ => ([4, 9, 4], [[], [], []])
  , estimatePoseSingleMarkers := fun _ _ _ _ =>
      ([⟨1, 1, 1⟩, ⟨2, 2, 2⟩, ⟨3, 3, 3⟩], [⟨4, 4, 4⟩, ⟨5, 5, 5⟩, ⟨6, 6, 6⟩]) }

@[simp] theorem storeFind_nil {α : Type} (id : Int) :
    storeFind ([] : Store α) id = none := rfl

@[simp] theorem storeKeys_nil {α : Type} : storeKeys ([] : Store α) = [] := rfl

@[simp] theorem storeKeys_cons {α : Type} (p : Int × Marker α) (st : Store α) :
    storeKeys (p :: st) = p.1 :: storeKeys st := rfl

theorem storeFind_insert {α : Type} (st : Store α) (k q : Int) (m : Marker α) :
    storeFind (storeInsert st k m) q =
      if k = q then some m else storeFind st q := by
  induction st with
  | nil => simp [storeInsert, storeFind]
  | cons p rest ih =>
      obtain ⟨a, b⟩ := p
      by_cases hak : a = k
      · subst hak
        by_cases haq : a = q
        · simp [storeInsert, storeFind, haq]
        · simp [storeInsert, storeFind, haq]
      · have hka : ¬ k = a := fun h => hak h.symm
        by_cases haq : a = q
        · subst haq
          simp [storeInsert, storeFind, hak, hka]
        · simp [storeInsert, storeFind, hak, haq, ih]

theorem storeKeys_insert {α : Type} (st : Store α) (k : Int) (m : Marker α) :
    storeKeys (storeInsert st k m) =
      if k ∈ storeKeys st then storeKeys st else storeKeys st ++ [k] := by
  induction st with
  | nil => simp [storeInsert, storeKeys]
  | cons p rest ih =>
      obtain ⟨a, b⟩ := p
      by_cases hak : a = k
      · subst hak
        simp [storeInsert]
      · have hka : ¬ k = a := fun h => hak h.symm
        simp only [storeInsert, if_neg hak, storeKeys_cons, ih]
        by_cases hmem : k ∈ storeKeys rest
        · simp [hmem, hka, List.mem_cons]
        · simp [hmem, hka, List.mem_cons]

theorem storeKeys_nodup_insert {α : Type} (st : Store α) (k : Int) (m : Marker α)
    (h : (storeKeys st).Nodup) : (storeKeys (storeInsert st k m)).Nodup := by
  rw [storeKeys_insert]
  by_cases hmem : k ∈ storeKeys st
  · simpa [hmem] using h
  · have hd : (storeKeys st).Disjoint [k] := by
      intro x hx hk
      rw [List.mem_singleton] at hk
      subst hk
      exact hmem hx
    simpa [hmem] using h.append (List.nodup_singleton k) hd

theorem mem_storeInsert {α : Type} (st : Store α) (k : Int) (m : Marker α)
    (p : Int × Marker α) (hp : p ∈ storeInsert st k m) : p ∈ st ∨ p = (k, m) := by
  induction st with
  | nil => simpa [storeInsert] using hp
  | cons q rest ih =>
      obtain ⟨a, b⟩ := q
      by_cases hak : a = k
      · subst hak
        rw [show storeInsert ((a, b) :: rest) a m = (a, m) :: rest from by
          simp [storeInsert]] at hp
        rcases List.mem_cons.mp hp with h | h
        · exact Or.inr h
        · exact Or.inl (List.mem_cons_of_mem _ h)
      · rw [show storeInsert ((a, b) :: rest) k m = (a, b) :: storeInsert rest k m from by
          simp [storeInsert, hak]] at hp
        rcases List.mem_cons.mp hp with h | h
        · exact Or.inl (by simp [h])
        · rcases ih h with h2 | h2
          · exact Or.inl (List.mem_cons_of_mem _ h2)
          · exact Or.inr h2

theorem storeFind_isSome_of_mem_keys {α : Type} (st : Store α) (q : Int)
    (h : q ∈ storeKeys st) : ∃ m, storeFind st q = some m := by
  induction st with
  | nil => simp at h
  | cons p rest ih =>
      obtain ⟨a, b⟩ := p
      by_cases haq : a = q
      · exact ⟨b, by simp [storeFind, haq]⟩
      · rw [storeKeys_cons, List.mem_cons] at h
        rcases h with h | h
        · exact absurd h.symm haq
        · obtain ⟨m, hm⟩ := ih h
          exact ⟨m, by simp [storeFind, haq, hm]⟩

theorem storeFind_eq_none_iff {α : Type} (st : Store α) (q : Int) :
    storeFind st q = none ↔ q ∉ storeKeys st := by
  induction st with
  | nil => simp
  | cons p rest ih =>
      obtain ⟨a, b⟩ := p
      by_cases haq : a = q
      · subst haq
        simp [storeFind, storeKeys_cons]
      · have hqa : q ≠ a := fun h => haq h.symm
        simp [storeFind, haq, storeKeys_cons, ih, hqa]

theorem writeIdsLoop_out {α : Type} (pairs : Store α) (buf : Nat → Int)
    (start n : Nat) (h : n < start ∨ start + pairs.length ≤ n) :
    writeIdsLoop pairs buf start n = buf n := by
  induction pairs generalizing buf start with
  | nil => rfl
  | cons p rest ih =>
      have hlen : (p :: rest).length = rest.length + 1 := rfl
      have hne : n ≠ start := by omega
      rw [writeIdsLoop, ih]
      · simp [bufSet, hne]
      · rcases h with h | h
        · exact Or.inl (by omega)
        · exact Or.inr (by simp at h ⊢; omega)

theorem writeIdsLoop_in {α : Type} (pairs : Store α) (buf : Nat → Int)
    (start i : Nat) (h : i < pairs.length) :
    writeIdsLoop pairs buf start (start + i) = (pairs.get ⟨i, h⟩).2.id := by
  induction pairs generalizing buf start i with
  | nil => simp at h
  | cons p rest ih =>
      cases i with
      | zero =>
          rw [writeIdsLoop, writeIdsLoop_out]
          · simp [bufSet]
          · exact Or.inl (by omega)
      | succ j =>
          have hj : j < rest.length := by simpa using h
          have hidx : start + (j + 1) = (start + 1) + j := by omega
          rw [writeIdsLoop, hidx, ih _ _ _ hj]
          rfl

theorem getIds_eval_of_le {α : Type} (st : DetectorState α) (buf : Nat → Int)
    (size : Int) (h31 : size < 2 ^ 31)
    (hle : (st._detectedMarkers.length : Int) ≤ size) :
    (GetDetectedMarkerIds st buf size).1 = true ∧
    (GetDetectedMarkerIds st buf size).2.1 = st ∧
    (∀ i (hi : i < st._detectedMarkers.length),
      (GetDetectedMarkerIds st buf size).2.2 i =
        (st._detectedMarkers.get ⟨i, hi⟩).2.id) ∧
    (∀ i, st._detectedMarkers.length ≤ i →
      (GetDetectedMarkerIds st buf size).2.2 i = buf i) := by
  have h0 : 0 ≤ size := le_trans (Int.natCast_nonneg _) hle
  have hcast : sizeTCast size = size.toNat := by
    unfold sizeTCast
    rw [Int.emod_eq_of_lt h0 (by omega)]
  have hnot : ¬ st._detectedMarkers.length > sizeTCast size := by
    rw [hcast]; omega
  refine ⟨by simp [GetDetectedMarkerIds, hnot], by simp [GetDetectedMarkerIds, hnot], ?_, ?_⟩
  · intro i hi
    simp only [GetDetectedMarkerIds, hnot, if_false]
    simpa using writeIdsLoop_in st._detectedMarkers buf 0 i hi
  · intro i hi
    simp only [GetDetectedMarkerIds, hnot, if_false]
    exact writeIdsLoop_out st._detectedMarkers buf 0 i (Or.inr (by omega))

theorem getIds_eval_of_gt {α : Type} (st : DetectorState α) (buf : Nat → Int)
    (size : Int) (h0 : 0 ≤ size) (h31 : size < 2 ^ 31)
    (hgt : size < (st._detectedMarkers.length : Int)) :
    (GetDetectedMarkerIds st buf size).1 = false ∧
    (GetDetectedMarkerIds st buf size).2.1 = st ∧
    (GetDetectedMarkerIds st buf size).2.2 = buf := by
  have hcast : sizeTCast size = size.toNat := by
    unfold sizeTCast
    rw [Int.emod_eq_of_lt h0 (by omega)]
  have hgt' : st._detectedMarkers.length > sizeTCast size := by
    rw [hcast]; omega
  refine ⟨by simp [GetDetectedMarkerIds, hgt'], by simp [GetDetectedMarkerIds, hgt'],
    by simp [GetDetectedMarkerIds, hgt']⟩

theorem getPose_true_of_find_some {α : Type} (st : DetectorState α) (id : Int)
    (position rotation : Vector3 α) (m : Marker α)
    (hm : storeFind st._detectedMarkers id = some m) :
    (GetDetectedMarkerPose st id position rotation).1 = true := by
  simp [GetDetectedMarkerPose, hm]

theorem detectLoop_nil {α : Type} (st : Store α) : detectLoop [] st = st := rfl

theorem detectLoop_cons {α : Type} (e : Int × (Vector3 α × Vector3 α))
    (rest : List (Int × (Vector3 α × Vector3 α))) (st : Store α) :
    detectLoop (e :: rest) st =
      detectLoop rest (storeInsert st e.1 ⟨e.1, e.2.1, e.2.2⟩) := rfl

theorem detectLoop_keys_nodup {α : Type}
    (entries : List (Int × (Vector3 α × Vector3 α))) (st : Store α)
    (h : (storeKeys st).Nodup) : (storeKeys (detectLoop entries st)).Nodup := by
  induction entries generalizing st with
  | nil => exact h
  | cons e rest ih => exact ih _ (storeKeys_nodup_insert _ _ _ h)

theorem detectLoop_id_eq_key {α : Type}
    (entries : List (Int × (Vector3 α × Vector3 α))) (st : Store α)
    (h : ∀ p ∈ st, p.2.id = p.1) :
    ∀ p ∈ detectLoop entries st, p.2.id = p.1 := by
  induction entries generalizing st with
  | nil => exact h
  | cons e rest ih =>
      refine ih _ ?_
      intro p hp
      rcases mem_storeInsert _ _ _ _ hp with h2 | h2
      · exact h p h2
      · subst h2
        rfl

theorem storeFind_detectLoop {α : Type}
    (entries : List (Int × (Vector3 α × Vector3 α))) (st : Store α) (q : Int) :
    storeFind (detectLoop entries st) q =
      match entries.reverse.find? (fun e => e.1 == q) with
      | some e => some ⟨e.1, e.2.1, e.2.2⟩
      | none => storeFind st q := by
  induction entries generalizing st with
  | nil => simp [detectLoop]
  | cons e rest ih =>
      rw [detectLoop_cons, ih]
      rw [List.reverse_cons, List.find?_append]
      cases hfind : rest.reverse.find? (fun e => e.1 == q) with
      | some e2 => simp
      | none =>
          simp only [Option.none_or]
          rw [storeFind_insert]
          by_cases he : e.1 = q
          · simp [List.find?, he]
          · have hbeq : (e.1 == q) = false := by simpa using he
            simp [List.find?, he, hbeq]

theorem le_foldl_max_init (l : List Nat) (a : Nat) : a ≤ l.foldl max a := by
  induction l generalizing a with
  | nil => exact le_refl a
  | cons b t ih => exact le_trans (le_max_left a b) (ih (max a b))

theorem mem_le_foldl_max (l : List Nat) (a x : Nat) (hx : x ∈ l) :
    x ≤ l.foldl max a := by
  induction l generalizing a with
  | nil => simp at hx
  | cons b t ih =>
      rcases List.mem_cons.mp hx with h | h
      · subst h
        exact le_trans (le_max_right a x) (le_foldl_max_init t (max a x))
      · exact ih (max a b) h

theorem dilate3x3_extensive (r c : Nat) (m : Nat → Nat → Nat) (i j : Nat)
    (hi : i < r) (hj : j < c) : m i j ≤ dilate3x3 r c m i j := by
  apply mem_le_foldl_max
  apply List.mem_filterMap.mpr
  refine ⟨(0, 0), by simp [kernelOffsets], ?_⟩
  have hcond : (0 : Int) ≤ (i : Int) + 0 ∧ (i : Int) + 0 < (r : Int) ∧
      (0 : Int) ≤ (j : Int) + 0 ∧ (j : Int) + 0 < (c : Int) := by
    refine ⟨by omega, ?_, by omega, ?_⟩
    · simpa using (Int.ofNat_lt.mpr hi)
    · simpa using (Int.ofNat_lt.mpr hj)
  simp only [if_pos hcond]
  simp

/-- C1 counterexample: the claim quantifies over every `int` capacity, but
with one stored marker and capacity `-1` — strictly smaller than the stored
count — `GetDetectedMarkerIds` succeeds and writes the identifier into the
buffer, because the signed capacity is cast to `size_t` and a negative value
compares as a huge unsigned number. -/
theorem getDetectedMarkerIds_negative_capacity_cex :
    ((-1 : Int) < (exState._detectedMarkers.length : Int)) ∧
    (GetDetectedMarkerIds exState exBuf (-1)).1 = true ∧
    (GetDetectedMarkerIds exState exBuf (-1)).2.2 0 = 7 := by
  refine ⟨by decide, ?_, ?_⟩ <;> decide

/-- C1 (amended): for every detector state and every NONNEGATIVE int
capacity, `GetDetectedMarkerIds` returns failure and leaves the output buffer
entirely unwritten if the capacity is smaller than the number of currently
stored markers; otherwise it writes every stored identifier into the buffer
and returns success. In particular, with capacity `storedCount` it succeeds
and with capacity `storedCount - 1` it fails, for `storedCount ≥ 1` (those
boundary capacities are nonnegative, so they are instances of the two
branches). -/
theorem getDetectedMarkerIds_capacity_spec {α : Type} (st : DetectorState α)
    (buf : Nat → Int) (size : Int) (h0 : 0 ≤ size) (h31 : size < 2 ^ 31) :
    ((size < (st._detectedMarkers.length : Int)) →
      (GetDetectedMarkerIds st buf size).1 = false ∧
      (GetDetectedMarkerIds st buf size).2.2 = buf) ∧
    (((st._detectedMarkers.length : Int) ≤ size) →
      (GetDetectedMarkerIds st buf size).1 = true ∧
      ∀ i (hi : i < st._detectedMarkers.length),
        (GetDetectedMarkerIds st buf size).2.2 i =
          (st._detectedMarkers.get ⟨i, hi⟩).2.id) := by
  constructor
  · intro hgt
    obtain ⟨h1, _, h3⟩ := getIds_eval_of_gt st buf size h0 h31 hgt
    exact ⟨h1, h3⟩
  · intro hle
    obtain ⟨h1, _, h3, _⟩ := getIds_eval_of_le st buf size h31 hle
    exact ⟨h1, h3⟩

/-- C1 witness: at the one-marker state with capacity 1 (= storedCount) the
call succeeds and writes id 7 at index 0; with capacity 0 (= storedCount - 1)
it fails and leaves the buffer unwritten. -/
theorem getDetectedMarkerIds_capacity_spec_witness :
    ((GetDetectedMarkerIds exState exBuf 1).1 = true ∧
      (GetDetectedMarkerIds exState exBuf 1).2.2 0 = 7) ∧
    ((GetDetectedMarkerIds exState exBuf 0).1 = false ∧
      (GetDetectedMarkerIds exState exBuf 0).2.2 = exBuf) := by
  constructor
  · have h := (getDetectedMarkerIds_capacity_spec exState exBuf 1
      (by decide) (by decide)).2 (by decide)
    refine ⟨h.1, ?_⟩
    have h0 := h.2 0 (by decide)
    rw [h0]
    decide
  · exact (getDetectedMarkerIds_capacity_spec exState exBuf 0
      (by decide) (by decide)).1 (by decide)

/-- C2: `GetDilatedMask` hands back the original input pointer, not the
newly computed dilated buffer: the returned pointer aliases the caller's
input allocation, the dilated result lives in a distinct fresh buffer (whose
contents, `dilate3x3` of the input, can differ from the returned buffer's
contents), and the caller's input mask buffer is left unchanged by the
call. -/
theorem getDilatedMask_returns_input (mask : Nat → Nat → Nat) (col row : Int) :
    (GetDilatedMask mask col row).returnedAddr = MaskAddr.input ∧
    (GetDilatedMask mask col row).returnedAddr ≠ MaskAddr.fresh ∧
    (GetDilatedMask mask col row).inputAfter = mask ∧
    (GetDilatedMask mask col row).dilatedContents =
      dilate3x3 row.toNat col.toNat mask ∧
    (∃ m0 : Nat → Nat → Nat, ∃ c0 r0 : Int,
      (GetDilatedMask m0 c0 r0).dilatedContents ≠
        (GetDilatedMask m0 c0 r0).inputAfter) := by
  refine ⟨rfl, by simp [GetDilatedMask], rfl, rfl, exMask, 2, 2, ?_⟩
  intro h
  exact absurd (congrFun (congrFun h 0) 1) (by decide)

/-- C3: `GetDetectedMarkerPose` returns failure iff the queried id is absent
from the store; on failure the caller's position and rotation outputs are
left untouched; on success it copies exactly the stored position and rotation
into them; in both cases the store is not mutated. -/
theorem getDetectedMarkerPose_spec {α : Type} (st : DetectorState α)
    (id : Int) (position rotation : Vector3 α) :
    ((GetDetectedMarkerPose st id position rotation).1 = false ↔
      id ∉ storeKeys st._detectedMarkers) ∧
    ((GetDetectedMarkerPose st id position rotation).1 = false →
      (GetDetectedMarkerPose st id position rotation).2.2.1 = position ∧
      (GetDetectedMarkerPose st id position rotation).2.2.2 = rotation) ∧
    (∀ m, storeFind st._detectedMarkers id = some m →
      (GetDetectedMarkerPose st id position rotation).1 = true ∧
      (GetDetectedMarkerPose st id position rotation).2.2.1 = m.position ∧
      (GetDetectedMarkerPose st id position rotation).2.2.2 = m.rotation) ∧
    (GetDetectedMarkerPose st id position rotation).2.1 = st := by
  cases hfind : storeFind st._detectedMarkers id with
  | none =>
      have hnot : id ∉ storeKeys st._detectedMarkers :=
        (storeFind_eq_none_iff _ _).mp hfind
      refine ⟨by simp [GetDetectedMarkerPose, hfind, hnot], ?_, ?_, ?_⟩
      · intro _
        simp [GetDetectedMarkerPose, hfind]
      · intro m hm
        exact absurd hm (by simp)
      · simp [GetDetectedMarkerPose, hfind]
  | some m =>
      have hmem : id ∈ storeKeys st._detectedMarkers := by
        by_contra hn
        rw [← storeFind_eq_none_iff] at hn
        rw [hfind] at hn
        exact absurd hn (by simp)
      refine ⟨by simp [GetDetectedMarkerPose, hfind, hmem], ?_, ?_, ?_⟩
      · intro hfalse
        rw [show (GetDetectedMarkerPose st id position rotation).1 = true from
          by simp [GetDetectedMarkerPose, hfind]] at hfalse
        exact absurd hfalse (by simp)
      · intro m2 hm2
        obtain rfl : m = m2 := by simpa using hm2
        refine ⟨?_, ?_, ?_⟩ <;> simp [GetDetectedMarkerPose, hfind]
      · simp [GetDetectedMarkerPose, hfind]

/-- C3 witness: at the one-marker state, querying the stored id 7 succeeds
and copies the stored pose; querying the absent id 9 fails and leaves the
outputs untouched. -/
theorem getDetectedMarkerPose_spec_witness :
    ((GetDetectedMarkerPose exState 7 ⟨0, 0, 0⟩ ⟨0, 0, 0⟩).1 = true ∧
      (GetDetectedMarkerPose exState 7 ⟨0, 0, 0⟩ ⟨0, 0, 0⟩).2.2.1 = ⟨1, 2, 3⟩ ∧
      (GetDetectedMarkerPose exState 7 ⟨0, 0, 0⟩ ⟨0, 0, 0⟩).2.2.2 = ⟨4, 5, 6⟩) ∧
    ((GetDetectedMarkerPose exState 9 ⟨0, 0, 0⟩ ⟨0, 0, 0⟩).1 = false ∧
      (GetDetectedMarkerPose exState 9 ⟨0, 0, 0⟩ ⟨0, 0, 0⟩).2.2.1 = ⟨0, 0, 0⟩ ∧
      (GetDetectedMarkerPose exState 9 ⟨0, 0, 0⟩ ⟨0, 0, 0⟩).2.2.2 = ⟨0, 0, 0⟩) := by
  constructor
  · exact (getDetectedMarkerPose_spec exState 7 ⟨0, 0, 0⟩ ⟨0, 0, 0⟩).2.2.1
      exMarker (by decide)
  · have hf : (GetDetectedMarkerPose exState 9
        (⟨0, 0, 0⟩ : Vector3 Int) ⟨0, 0, 0⟩).1 = false := by decide
    have h := (getDetectedMarkerPose_spec exState 9 ⟨0, 0, 0⟩ ⟨0, 0, 0⟩).2.1 hf
    exact ⟨hf, h.1, h.2⟩

/-- C5: the camera model built inside `DetectMarkers` has exactly the
specified layout: focal lengths at (0,0) and (1,1), principal point at
(0,2) and (1,2), 1 at (2,2), zeros at every other entry of the 3×3 matrix;
and the 5-element distortion vector is
[radial 0, radial 1, tangential 0, tangential 1, radial 2], the third radial
term placed last, after both tangential terms. -/
theorem cameraModel_layout {α : Type} [Zero α] [One α]
    (focalLength principalPoint : Fin 2 → α)
    (radialDistortion : Fin 3 → α) (tangentialDistortion : Fin 2 → α) :
    cameraMatrix focalLength principalPoint 0 0 = focalLength 0 ∧
    cameraMatrix focalLength principalPoint 1 1 = focalLength 1 ∧
    cameraMatrix focalLength principalPoint 0 2 = principalPoint 0 ∧
    cameraMatrix focalLength principalPoint 1 2 = principalPoint 1 ∧
    cameraMatrix focalLength principalPoint 2 2 = 1 ∧
    cameraMatrix focalLength principalPoint 0 1 = 0 ∧
    cameraMatrix focalLength principalPoint 1 0 = 0 ∧
    cameraMatrix focalLength principalPoint 2 0 = 0 ∧
    cameraMatrix focalLength principalPoint 2 1 = 0 ∧
    distCoeffMatrix radialDistortion tangentialDistortion 0 = radialDistortion 0 ∧
    distCoeffMatrix radialDistortion tangentialDistortion 1 = radialDistortion 1 ∧
    distCoeffMatrix radialDistortion tangentialDistortion 2 = tangentialDistortion 0 ∧
    distCoeffMatrix radialDistortion tangentialDistortion 3 = tangentialDistortion 1 ∧
    distCoeffMatrix radialDistortion tangentialDistortion 4 = radialDistortion 2 := by
  refine ⟨?_, ?_, ?_, ?_, ?_, ?_, ?_, ?_, ?_, ?_, ?_, ?_, ?_, ?_⟩ <;> rfl

/-- C10: when `GetDetectedMarkerIds` is called with capacity strictly greater
than the number of stored markers, it succeeds, writes exactly the buffer
positions 0 through storedCount−1 (position `i` receives the id of the `i`-th
stored pair, consecutively with no gaps), leaves every buffer entry at index
storedCount or beyond unchanged, and leaves the detection store itself
unmodified. -/
theorem getDetectedMarkerIds_frame {α : Type} (st : DetectorState α)
    (buf : Nat → Int) (size : Int)
    (hgt : (st._detectedMarkers.length : Int) < size) (h31 : size < 2 ^ 31) :
    (GetDetectedMarkerIds st buf size).1 = true ∧
    (∀ i (hi : i < st._detectedMarkers.length),
      (GetDetectedMarkerIds st buf size).2.2 i =
        (st._detectedMarkers.get ⟨i, hi⟩).2.id) ∧
    (∀ i, st._detectedMarkers.length ≤ i →
      (GetDetectedMarkerIds st buf size).2.2 i = buf i) ∧
    (GetDetectedMarkerIds st buf size).2.1 = st := by
  obtain ⟨h1, h2, h3, h4⟩ := getIds_eval_of_le st buf size h31 (le_of_lt hgt)
  exact ⟨h1, h3, h4, h2⟩

/-- C10 witness: at the one-marker state with capacity 3, the call succeeds,
writes id 7 at index 0, leaves index 5 at its old value 0, and leaves the
state unchanged. -/
theorem getDetectedMarkerIds_frame_witness :
    (GetDetectedMarkerIds exState exBuf 3).1 = true ∧
    (GetDetectedMarkerIds exState exBuf 3).2.2 0 = 7 ∧
    (GetDetectedMarkerIds exState exBuf 3).2.2 5 = 0 ∧
    (GetDetectedMarkerIds exState exBuf 3).2.1 = exState := by
  obtain ⟨h1, h2, h3, h4⟩ := getDetectedMarkerIds_frame exState exBuf 3
    (by decide) (by decide)
  refine ⟨h1, ?_, ?_, h4⟩
  · rw [h2 0 (by decide)]
    decide
  · rw [h3 5 (by decide)]
    decide

/-- C4: every `DetectMarkers` call fully discards the previous contents of
the detection store and repopulates it only from the current pass's entries
(the post-state is independent of the prior state, and equals the loop run
from the empty store); when the pass yields two markers with the same
identifier, the later entry in candidate order overwrites the earlier one
(the stored value at each id is the LAST pass entry with that id); and
stored identifiers are unique. -/
theorem detectMarkers_rebuild {α : Type} [Zero α] [One α] (cv : CvOracle α)
    (imageData : Nat → Nat) (imageWidth imageHeight : Int)
    (focalLength principalPoint : Fin 2 → α) (radialDistortion : Fin 3 → α)
    (tangentialDistortion : Fin 2 → α) (markerSize : α)
    (arUcoMarkerDictionaryId : Int) (st st2 : DetectorState α) :
    ((DetectMarkers cv imageData imageWidth imageHeight focalLength
        principalPoint radialDistortion tangentialDistortion markerSize
        arUcoMarkerDictionaryId st).2 =
      (DetectMarkers cv imageData imageWidth imageHeight focalLength
        principalPoint radialDistortion tangentialDistortion markerSize
        arUcoMarkerDictionaryId st2).2) ∧
    ((DetectMarkers cv imageData imageWidth imageHeight focalLength
        principalPoint radialDistortion tangentialDistortion markerSize
        arUcoMarkerDictionaryId st).2._detectedMarkers =
      detectLoop (detectPassEntries cv imageData imageWidth imageHeight
        focalLength principalPoint radialDistortion tangentialDistortion
        markerSize arUcoMarkerDictionaryId) []) ∧
    (storeKeys ((DetectMarkers cv imageData imageWidth imageHeight focalLength
        principalPoint radialDistortion tangentialDistortion markerSize
        arUcoMarkerDictionaryId st).2._detectedMarkers)).Nodup ∧
    (∀ q, storeFind ((DetectMarkers cv imageData imageWidth imageHeight
        focalLength principalPoint radialDistortion tangentialDistortion
        markerSize arUcoMarkerDictionaryId st).2._detectedMarkers) q =
      Option.map (fun e => (⟨e.1, e.2.1, e.2.2⟩ : Marker α))
        ((detectPassEntries cv imageData imageWidth imageHeight focalLength
          principalPoint radialDistortion tangentialDistortion markerSize
          arUcoMarkerDictionaryId).reverse.find? (fun e => e.1 == q))) := by
  refine ⟨rfl, rfl, detectLoop_keys_nodup _ _ (by simp), ?_⟩
  intro q
  have h := storeFind_detectLoop (detectPassEntries cv imageData imageWidth
    imageHeight focalLength principalPoint radialDistortion
    tangentialDistortion markerSize arUcoMarkerDictionaryId) ([] : Store α) q
  rw [show (DetectMarkers cv imageData imageWidth imageHeight focalLength
      principalPoint radialDistortion tangentialDistortion markerSize
      arUcoMarkerDictionaryId st).2._detectedMarkers =
    detectLoop (detectPassEntries cv imageData imageWidth imageHeight
      focalLength principalPoint radialDistortion tangentialDistortion
      markerSize arUcoMarkerDictionaryId) [] from rfl, h]
  cases (detectPassEntries cv imageData imageWidth imageHeight focalLength
      principalPoint radialDistortion tangentialDistortion markerSize
      arUcoMarkerDictionaryId).reverse.find? (fun e => e.1 == q) with
  | some e => rfl
  | none => rfl

/-- C6: `DetectMarkers` reports success (returns `true`) for every input once
it runs to completion — the model has no failure return path — and a pass in
which the detector decodes zero markers is a successful outcome after which
the store is empty. -/
theorem detectMarkers_always_succeeds {α : Type} [Zero α] [One α]
    (cv : CvOracle α) (imageData : Nat → Nat) (imageWidth imageHeight : Int)
    (focalLength principalPoint : Fin 2 → α) (radialDistortion : Fin 3 → α)
    (tangentialDistortion : Fin 2 → α) (markerSize : α)
    (arUcoMarkerDictionaryId : Int) (st : DetectorState α) :
    (DetectMarkers cv imageData imageWidth imageHeight focalLength
      principalPoint radialDistortion tangentialDistortion markerSize
      arUcoMarkerDictionaryId st).1 = true ∧
    ((cv.detectMarkers (cv.cvtColorBGRA2GRAY imageData imageWidth imageHeight)
        arUcoMarkerDictionaryId).1 = [] →
      (DetectMarkers cv imageData imageWidth imageHeight focalLength
        principalPoint radialDistortion tangentialDistortion markerSize
        arUcoMarkerDictionaryId st).2._detectedMarkers = []) := by
  refine ⟨rfl, ?_⟩
  intro h
  show detectLoop (detectPassEntries cv imageData imageWidth imageHeight
    focalLength principalPoint radialDistortion tangentialDistortion
    markerSize arUcoMarkerDictionaryId) [] = []
  simp [detectPassEntries, detectLoop, h]

/-- C6 witness: in an environment where the detector decodes no markers,
`DetectMarkers` (run from the one-marker state) returns `true` and empties
the store. -/
theorem detectMarkers_always_succeeds_witness :
    (DetectMarkers cvEmptyOracle (fun _ => 0) 4 4 (fun _ => 0) (fun _ => 0)
      (fun _ => 0) (fun _ => 0) 1 0 exState).1 = true ∧
    (DetectMarkers cvEmptyOracle (fun _ => 0) 4 4 (fun _ => 0) (fun _ => 0)
      (fun _ => 0) (fun _ => 0) 1 0 exState).2._detectedMarkers = [] := by
  have h := detectMarkers_always_succeeds cvEmptyOracle (fun _ => 0) 4 4
    (fun _ => 0) (fun _ => 0) (fun _ => 0) (fun _ => 0) 1 0 exState
  exact ⟨h.1, h.2 rfl⟩

/-- C7: after every `DetectMarkers` pass, `GetDetectedMarkerIds` called with
sufficient capacity succeeds, the number of ids it writes (the store's size)
equals the number of distinct identifiers in the store, and
`GetDetectedMarkerPose` succeeds for each id so returned. -/
theorem detect_then_queries_consistent {α : Type} [Zero α] [One α]
    (cv : CvOracle α) (imageData : Nat → Nat) (imageWidth imageHeight : Int)
    (focalLength principalPoint : Fin 2 → α) (radialDistortion : Fin 3 → α)
    (tangentialDistortion : Fin 2 → α) (markerSize : α)
    (arUcoMarkerDictionaryId : Int) (st : DetectorState α)
    (buf : Nat → Int) (size : Int) (position rotation : Vector3 α)
    (h31 : size < 2 ^ 31)
    (hcap : (((DetectMarkers cv imageData imageWidth imageHeight focalLength
        principalPoint radialDistortion tangentialDistortion markerSize
        arUcoMarkerDictionaryId st).2._detectedMarkers.length : Int) ≤ size)) :
    (GetDetectedMarkerIds (DetectMarkers cv imageData imageWidth imageHeight
      focalLength principalPoint radialDistortion tangentialDistortion
      markerSize arUcoMarkerDictionaryId st).2 buf size).1 = true ∧
    ((DetectMarkers cv imageData imageWidth imageHeight focalLength
        principalPoint radialDistortion tangentialDistortion markerSize
        arUcoMarkerDictionaryId st).2._detectedMarkers.length =
      (storeKeys ((DetectMarkers cv imageData imageWidth imageHeight
        focalLength principalPoint radialDistortion tangentialDistortion
        markerSize arUcoMarkerDictionaryId st).2._detectedMarkers)).dedup.length) ∧
    (∀ i (hi : i < (DetectMarkers cv imageData imageWidth imageHeight
        focalLength principalPoint radialDistortion tangentialDistortion
        markerSize arUcoMarkerDictionaryId st).2._detectedMarkers.length),
      (GetDetectedMarkerPose (DetectMarkers cv imageData imageWidth
          imageHeight focalLength principalPoint radialDistortion
          tangentialDistortion markerSize arUcoMarkerDictionaryId st).2
        ((GetDetectedMarkerIds (DetectMarkers cv imageData imageWidth
          imageHeight focalLength principalPoint radialDistortion
          tangentialDistortion markerSize arUcoMarkerDictionaryId st).2
          buf size).2.2 i)
        position rotation).1 = true) := by
  obtain ⟨h1, _, h3, _⟩ := getIds_eval_of_le _ buf size h31 hcap
  have hnodup := detectLoop_keys_nodup (detectPassEntries cv imageData
    imageWidth imageHeight focalLength principalPoint radialDistortion
    tangentialDistortion markerSize arUcoMarkerDictionaryId)
    ([] : Store α) (by simp)
  have hS : (DetectMarkers cv imageData imageWidth imageHeight focalLength
      principalPoint radialDistortion tangentialDistortion markerSize
      arUcoMarkerDictionaryId st).2._detectedMarkers =
    detectLoop (detectPassEntries cv imageData imageWidth imageHeight
      focalLength principalPoint radialDistortion tangentialDistortion
      markerSize arUcoMarkerDictionaryId) [] := rfl
  refine ⟨h1, ?_, ?_⟩
  · rw [hS, List.dedup_eq_self.mpr hnodup]
    simp [storeKeys]
  · intro i hi
    rw [h3 i hi]
    have hmem := List.get_mem (DetectMarkers cv imageData imageWidth
      imageHeight focalLength principalPoint radialDistortion
      tangentialDistortion markerSize arUcoMarkerDictionaryId
      st).2._detectedMarkers i hi
    have hid := detectLoop_id_eq_key (detectPassEntries cv imageData
      imageWidth imageHeight focalLength principalPoint radialDistortion
      tangentialDistortion markerSize arUcoMarkerDictionaryId)
      ([] : Store α) (by simp) _ hmem
    rw [hid]
    have hkey := List.mem_map_of_mem (fun p => p.1) hmem
    obtain ⟨m, hm⟩ := storeFind_isSome_of_mem_keys _ _ hkey
    exact getPose_true_of_find_some _ _ _ _ m hm

/-- C7 witness: in an environment where the pass decodes ids [4, 9, 4] (two
distinct identifiers after last-write-wins), the id query with capacity 5
succeeds and the pose query succeeds for the first returned id. -/
theorem detect_then_queries_consistent_witness :
    (GetDetectedMarkerIds (DetectMarkers cvThreeOracle (fun _ => 0) 4 4
      (fun _ => 0) (fun _ => 0) (fun _ => 0) (fun _ => 0) 1 0 exState).2
      exBuf 5).1 = true ∧
    (GetDetectedMarkerPose (DetectMarkers cvThreeOracle (fun _ => 0) 4 4
        (fun _ => 0) (fun _ => 0) (fun _ => 0) (fun _ => 0) 1 0 exState).2
      ((GetDetectedMarkerIds (DetectMarkers cvThreeOracle (fun _ => 0) 4 4
        (fun _ => 0) (fun _ => 0) (fun _ => 0) (fun _ => 0) 1 0 exState).2
        exBuf 5).2.2 0)
      ⟨0, 0, 0⟩ ⟨0, 0, 0⟩).1 = true := by
  have h := detect_then_queries_consistent cvThreeOracle (fun _ => 0) 4 4
    (fun _ => 0) (fun _ => 0) (fun _ => 0) (fun _ => 0) 1 0 exState exBuf 5
    ⟨0, 0, 0⟩ ⟨0, 0, 0⟩ (by decide) (by decide)
  exact ⟨h.1, h.2.2 0 (by decide)⟩

/-- C9: `DetectMarkers` is deterministic as a two-run property: running it a
second time on its own post-state (same image bytes, dimensions, camera
parameters, marker size and dictionary id, same deterministic environment)
reproduces the same post-state, and the post-state is independent of the
prior state, so the two runs' stores have identical key sets and identical
stored poses. -/
theorem detectMarkers_deterministic {α : Type} [Zero α] [One α]
    (cv : CvOracle α) (imageData : Nat → Nat) (imageWidth imageHeight : Int)
    (focalLength principalPoint : Fin 2 → α) (radialDistortion : Fin 3 → α)
    (tangentialDistortion : Fin 2 → α) (markerSize : α)
    (arUcoMarkerDictionaryId : Int) (st st2 : DetectorState α) :
    ((DetectMarkers cv imageData imageWidth imageHeight focalLength
        principalPoint radialDistortion tangentialDistortion markerSize
        arUcoMarkerDictionaryId
        ((DetectMarkers cv imageData imageWidth imageHeight focalLength
          principalPoint radialDistortion tangentialDistortion markerSize
          arUcoMarkerDictionaryId st).2)).2 =
      (DetectMarkers cv imageData imageWidth imageHeight focalLength
        principalPoint radialDistortion tangentialDistortion markerSize
        arUcoMarkerDictionaryId st).2) ∧
    ((DetectMarkers cv imageData imageWidth imageHeight focalLength
        principalPoint radialDistortion tangentialDistortion markerSize
        arUcoMarkerDictionaryId st).2 =
      (DetectMarkers cv imageData imageWidth imageHeight focalLength
        principalPoint radialDistortion tangentialDistortion markerSize
        arUcoMarkerDictionaryId st2).2) ∧
    (storeKeys ((DetectMarkers cv imageData imageWidth imageHeight
        focalLength principalPoint radialDistortion tangentialDistortion
        markerSize arUcoMarkerDictionaryId st).2._detectedMarkers) =
      storeKeys ((DetectMarkers cv imageData imageWidth imageHeight
        focalLength principalPoint radialDistortion tangentialDistortion
        markerSize arUcoMarkerDictionaryId st2).2._detectedMarkers)) ∧
    (∀ q, storeFind ((DetectMarkers cv imageData imageWidth imageHeight
        focalLength principalPoint radialDistortion tangentialDistortion
        markerSize arUcoMarkerDictionaryId st).2._detectedMarkers) q =
      storeFind ((DetectMarkers cv imageData imageWidth imageHeight
        focalLength principalPoint radialDistortion tangentialDistortion
        markerSize arUcoMarkerDictionaryId st2).2._detectedMarkers) q) :=
  ⟨rfl, rfl, rfl, fun _ => rfl⟩

/-- C8: every non-zero pixel of the source mask is non-zero at the same
coordinates in the dilated output of `GetDilatedMask`'s 3×3 rectangular
dilation, and the number of non-zero pixels after dilation is at least the
number before (dilation is extensive). -/
theorem dilation_monotone (mask : Nat → Nat → Nat) (col row : Int) :
    (∀ i j, i < row.toNat → j < col.toNat → mask i j ≠ 0 →
      (GetDilatedMask mask col row).dilatedContents i j ≠ 0) ∧
    nnz row.toNat col.toNat mask ≤
      nnz row.toNat col.toNat ((GetDilatedMask mask col row).dilatedContents) := by
  constructor
  · intro i j hi hj hnz
    have hle := dilate3x3_extensive row.toNat col.toNat mask i j hi hj
    have heq : (GetDilatedMask mask col row).dilatedContents i j =
        dilate3x3 row.toNat col.toNat mask i j := rfl
    omega
  · unfold nnz
    apply Finset.card_le_card
    intro p hp
    rw [Finset.mem_filter] at hp ⊢
    obtain ⟨hdom, hnz⟩ := hp
    refine ⟨hdom, ?_⟩
    rw [Finset.mem_product, Finset.mem_range, Finset.mem_range] at hdom
    have hle := dilate3x3_extensive row.toNat col.toNat mask p.1 p.2
      hdom.1 hdom.2
    have heq : (GetDilatedMask mask col row).dilatedContents p.1 p.2 =
        dilate3x3 row.toNat col.toNat mask p.1 p.2 := rfl
    omega

/-- C8 witness: for the 2×2 one-pixel mask, the labeled pixel (0,0) stays
non-zero after dilation, and the dilated mask has at least as many non-zero
pixels as the source. -/
theorem dilation_monotone_witness :
    (GetDilatedMask exMask 2 2).dilatedContents 0 0 ≠ 0 ∧
    nnz 2 2 exMask ≤ nnz 2 2 ((GetDilatedMask exMask 2 2).dilatedContents) := by
  constructor
  · exact (dilation_monotone exMask 2 2).1 0 0 (by decide) (by decide) (by decide)
  · have h := (dilation_monotone exMask 2 2).2
    simpa using h

end ArUco
